import Mathlib

/-!
Verification of the collaborative-whiteboard relay server (`src/server.js`)
against its natural-language specification.

The server is single-threaded and event-driven (Node's cooperative event
loop), so every handler runs to completion before the next one starts.  We
embed each handler as a pure function from the server's shared state (the
connection registry and the drawing-history buffer) and the handler's inputs
to the new state together with the ordered list of messages the handler
sends.  Times are natural numbers standing for millisecond timestamps.

The source keeps two process-wide structures in lockstep: `wss.clients`
(the set of live sockets) and `clients` (a `Map` from socket to metadata
`{id, ip, connectedAt, lastActivity}`).  A socket is in both between its
`connection` event and its close/termination, so the embedding merges them
into one list of `Client` records; a record's `cid` plays the role of both
the socket's object identity and the UUID `clientId` the registry assigns
(UUIDs are unique, so identifying the two loses nothing).  The drawing
payload (`data.data`, spread into the stored action) is opaque to the
server, so a `Nat` stands in for it.
-/

namespace Whiteboard

/-- Stand-in for the opaque drawing payload (`data.data` in the source);
the server never inspects its structure. -/
abbrev Payload := Nat

/-- `const MAX_HISTORY = 100` (src/server.js:79). -/
def MAX_HISTORY : Nat := 100

/-- A recorded drawing action: `{ ...data.data, clientId, timestamp: Date.now() }`
(src/server.js:141). -/
structure DrawAction where
  payload : Payload
  clientId : Nat
  timestamp : Nat
deriving DecidableEq, Repr

/-- WebSocket ready states; `broadcastMessage` only sends to `OPEN` sockets. -/
inductive RState
  | CONNECTING
  | OPEN
  | CLOSING
  | CLOSED
deriving DecidableEq, Repr

/-- One live connection: the socket (identified by `cid`, which also serves
as the UUID `clientId` recorded in the registry) together with the metadata
the `clients` Map stores for it (src/server.js:87-92). -/
structure Client where
  cid : Nat
  readyState : RState
  connectedAt : Nat
  lastActivity : Nat
deriving DecidableEq, Repr

/-- The process-wide shared state: the connection registry (`wss.clients`
merged with the `clients` Map) and `drawingHistory` (src/server.js:77-78). -/
structure ServerState where
  clients : List Client
  drawingHistory : List DrawAction
deriving DecidableEq, Repr

/-- Messages the server sends, by their `type` field. -/
inductive ServerMsg
  | INIT (data : List DrawAction)
  | SYSTEM (message : String)
  | DRAW (data : DrawAction)
  | CHAT (name : String) (res : String)
  | PONG (timestamp : Nat)
deriving DecidableEq, Repr

/-- A parsed inbound client message, by its `type` field.  `OTHER` stands
for any successfully parsed message whose `type` matches none of the three
handled branches (it falls through the `if`/`else if` chain untouched). -/
inductive ClientMsg
  | DRAW (payload : Payload)
  | CHAT (name : String) (res : String)
  | PING
  | OTHER
deriving DecidableEq, Repr

/-- History append (src/server.js:142-147): `drawingHistory.push(action)`
then `if (drawingHistory.length > MAX_HISTORY) drawingHistory.shift()`.
The list head is the oldest entry, matching `shift` removing index 0. -/
def pushHistory (h : List DrawAction) (a : DrawAction) : List DrawAction :=
  let h2 := h ++ [a]
  if h2.length > MAX_HISTORY then h2.drop 1 else h2

/-- `broadcastMessage(message, excludeClient)` (src/server.js:214-226):
iterate every registered socket, skip `excludeClient` (compared by
identity, here `cid`) and any socket not `OPEN`, and send `message` to the
rest.  The result is the ordered list of (recipient, message) sends. -/
def broadcastMessage (clientsL : List Client) (message : ServerMsg)
    (excludeClient : Option Nat) : List (Nat × ServerMsg) :=
  clientsL.filterMap (fun client =>
    if some client.cid ≠ excludeClient ∧ client.readyState = RState.OPEN then
      some (client.cid, message)
    else none)

/-- Registry touch (src/server.js:131-134): `clientInfo.lastActivity = new Date()`
for the sender's registry entry. -/
def touch (clientsL : List Client) (cid : Nat) (now : Nat) : List Client :=
  clientsL.map (fun c => if c.cid = cid then { c with lastActivity := now } else c)

/-- The `ws.on('message')` handler (src/server.js:128-177).  The sender's
`lastActivity` is updated first (lines 131-134); only then is the raw text
parsed (line 136).  `none` models a message `JSON.parse` rejects: control
jumps to the `catch`, which only logs, so nothing further happens.  A
parsed message dispatches on `type`: DRAW appends to history then
broadcasts to everyone but the sender; CHAT broadcasts to everyone; PING
replies to the sender alone; any other type falls through silently. -/
def handleMessage (st : ServerState) (sender : Client) (now : Nat)
    (msg? : Option ClientMsg) : ServerState × List (Nat × ServerMsg) :=
  let st1 : ServerState := { st with clients := touch st.clients sender.cid now }
  match msg? with
  | none => (st1, [])
  | some (ClientMsg.DRAW payload) =>
      let action : DrawAction := { payload := payload, clientId := sender.cid, timestamp := now }
      ({ st1 with drawingHistory := pushHistory st1.drawingHistory action },
       broadcastMessage st1.clients (ServerMsg.DRAW action) (some sender.cid))
  | some (ClientMsg.CHAT name res) =>
      (st1, broadcastMessage st1.clients (ServerMsg.CHAT name res) none)
  | some ClientMsg.PING =>
      (st1, [(sender.cid, ServerMsg.PONG now)])
  | some ClientMsg.OTHER => (st1, [])

/-- The `wss.on('connection')` handler (src/server.js:82-211): register the
socket with fresh timestamps, send it the full `drawingHistory` as INIT,
send it the SYSTEM welcome, and finally broadcast the join notice to every
other socket (the `ws` library adds the socket to `wss.clients` before
emitting `connection`, so the new socket is in the iterated set but is the
excluded one). -/
def handleConnection (st : ServerState) (cid : Nat) (now : Nat) :
    ServerState × List (Nat × ServerMsg) :=
  let newClient : Client :=
    { cid := cid, readyState := RState.OPEN, connectedAt := now, lastActivity := now }
  let st1 : ServerState := { st with clients := st.clients ++ [newClient] }
  (st1,
    [(cid, ServerMsg.INIT st.drawingHistory),
     (cid, ServerMsg.SYSTEM "Connected to whiteboard server")]
      ++ broadcastMessage st1.clients
          (ServerMsg.SYSTEM "A new user has joined the whiteboard") (some cid))

end Whiteboard

namespace Whiteboard

/-- One call of the `done` callback handed to `verifyClient`. -/
inductive DoneCall
  | accept
  | reject (code : Nat) (reason : String)
deriving DecidableEq, Repr

/-- The configured allow-list (src/server.js:54-57). -/
def allowedOrigins : List String :=
  ["https://whiteboard-frontend-ikhrz0fz2-creatorramas-projects.vercel.app",
   "http://127.0.0.1:5173"]

/-- The `verifyClient` option (src/server.js:49-74), embedded as the exact
sequence of `done` calls the function makes.  JavaScript's `!info.origin`
is true when the origin header is missing or the empty string, which
`origin.getD "" = ""` captures.  After the if/else the code unconditionally
calls `done(true)` once more (line 73), so the list always has a trailing
accept. -/
def verifyClient (origin : Option String) : List DoneCall :=
  (if origin.getD "" = "" ∨ allowedOrigins.contains (origin.getD "") then
    [DoneCall.accept]
  else
    [DoneCall.reject 401 "Unauthorized origin"])
  ++ [DoneCall.accept]

/-- The handshake outcome: in the `ws` library the first invocation of the
`done` callback decides the handshake (a rejecting first call aborts it
with the given status; later calls find the socket already settled), so
the effective decision is the head of the call sequence. -/
def handshakeDecision (origin : Option String) : Option DoneCall :=
  (verifyClient origin).head?

/-- A handshake attempt end to end: only when the decision is accept does
the `connection` event fire and a registry entry get created; a rejected
handshake leaves the state untouched and sends no WebSocket message. -/
def tryConnect (st : ServerState) (origin : Option String) (cid : Nat) (now : Nat) :
    ServerState × List (Nat × ServerMsg) :=
  match handshakeDecision origin with
  | some DoneCall.accept => handleConnection st cid now
  | _ => (st, [])

/-- Inactivity threshold `5 * 60 * 1000` ms (src/server.js:243). -/
def INACTIVITY_MS : Nat := 5 * 60 * 1000

/-- Sweep period `2 * 60 * 1000` ms (src/server.js:253). -/
def SWEEP_PERIOD_MS : Nat := 2 * 60 * 1000

/-- The cleanup sweep (src/server.js:238-253): every registered connection
whose `lastActivity` lies more than `INACTIVITY_MS` in the past is
terminated and deleted from the registry; all other entries are left
untouched. -/
def sweep (st : ServerState) (now : Nat) : ServerState :=
  { st with clients := st.clients.filter (fun c => ¬ now - c.lastActivity > INACTIVITY_MS) }

/-- One observable step of the shutdown drain: a send or a close. -/
inductive SEvent
  | send (cid : Nat) (message : ServerMsg)
  | close (cid : Nat) (code : Nat) (reason : String)
deriving DecidableEq, Repr

/-- The connection the event is addressed to. -/
def eventCid : SEvent → Nat
  | SEvent.send cid _ => cid
  | SEvent.close cid _ _ => cid

/-- The SYSTEM notice sent during shutdown (src/server.js:272-275). -/
def shutdownNotice : ServerMsg := ServerMsg.SYSTEM "Server is shutting down..."

/-- The body of the drain loop, per iterated socket list: if the socket is
OPEN, send the SYSTEM notice and then `close(1000, 'Server shutdown')`;
sockets in any other state are skipped (src/server.js:270-278). -/
def drainEvents (l : List Client) : List SEvent :=
  (l.map (fun client =>
    if client.readyState = RState.OPEN then
      [SEvent.send client.cid shutdownNotice,
       SEvent.close client.cid 1000 "Server shutdown"]
    else [])).flatten

/-- The ordered event trace of `shutdown()`'s drain over `wss.clients`. -/
def shutdownTrace (st : ServerState) : List SEvent :=
  drainEvents st.clients

/-- Drain timeout `5000` ms (src/server.js:290). -/
def SHUTDOWN_TIMEOUT_MS : Nat := 5000

/-- Process exit code (src/server.js:281-290): `process.exit(0)` when
`server.close` completes the drain within the timeout, `process.exit(1)`
from the forced-shutdown timer otherwise. -/
def shutdownExitCode (gracefulWithinTimeout : Bool) : Nat :=
  if gracefulWithinTimeout then 0 else 1

/-- Running a sequence of DRAW appends from the empty buffer. -/
def runDraws (as : List DrawAction) : List DrawAction :=
  as.foldl pushHistory []

/-- The payload of the first INIT message in a send list, if any. -/
def initPayloadOf (sends : List (Nat × ServerMsg)) : Option (List DrawAction) :=
  sends.findSome? (fun p =>
    match p.2 with
    | ServerMsg.INIT d => some d
    | _ => none)

/-- Three live connections used to instantiate the witnesses. -/
def clientA : Client :=
  { cid := 1, readyState := RState.OPEN, connectedAt := 0, lastActivity := 0 }

def clientB : Client :=
  { cid := 2, readyState := RState.OPEN, connectedAt := 0, lastActivity := 0 }

def clientC : Client :=
  { cid := 3, readyState := RState.OPEN, connectedAt := 0, lastActivity := 0 }

/-- A server state with A, B, C all live and an empty history. -/
def stABC : ServerState :=
  { clients := [clientA, clientB, clientC], drawingHistory := [] }

/-- A socket already fully closed, for the shutdown witness. -/
def clientD : Client :=
  { cid := 4, readyState := RState.CLOSED, connectedAt := 0, lastActivity := 0 }

/-- A live state with one OPEN and one CLOSED socket. -/
def stAD : ServerState :=
  { clients := [clientA, clientD], drawingHistory := [] }

/-- A connection silent since time 0, for the sweep witness. -/
def staleClient : Client :=
  { cid := 9, readyState := RState.OPEN, connectedAt := 0, lastActivity := 0 }

/-- A connection last active at time 1, for the sweep witness. -/
def freshClient : Client :=
  { cid := 10, readyState := RState.OPEN, connectedAt := 0, lastActivity := 1 }

/-- A state holding the stale and the fresh connection. -/
def stSweep : ServerState :=
  { clients := [staleClient, freshClient], drawingHistory := [] }

end Whiteboard

namespace Whiteboard

/-- Folding a whole sequence of DRAW events into the history from any
starting buffer no longer than the maximum keeps exactly the most recent
entries: the result is the combined sequence with just enough dropped from
the front to fit the capacity. -/
theorem foldl_pushHistory_eq (as : List DrawAction) :
    ∀ h : List DrawAction, h.length ≤ MAX_HISTORY →
      as.foldl pushHistory h = (h ++ as).drop (h.length + as.length - MAX_HISTORY) := by
  induction as with
  | nil =>
    intro h hh
    simp [Nat.sub_eq_zero_of_le hh]
  | cons a as ih =>
    intro h hh
    rw [List.foldl_cons]
    by_cases hlt : h.length + 1 > MAX_HISTORY
    · have hM : (1 : Nat) ≤ MAX_HISTORY := by decide
      have hlen : h.length = MAX_HISTORY := by omega
      have hpush : pushHistory h a = (h ++ [a]).drop 1 := by
        simp [pushHistory, hlen]
      have hplen : (pushHistory h a).length = MAX_HISTORY := by
        rw [hpush]
        simp [hlen]
      rw [ih (pushHistory h a) (le_of_eq hplen), hpush]
      have hdl : (List.drop 1 (h ++ [a])).length = MAX_HISTORY := by
        simp [hlen]
      rw [hdl]
      have h1 : (1 : Nat) ≤ h.length := by omega
      rw [List.drop_append_of_le_length h1]
      have h2 : (1 : Nat) ≤ (h ++ a :: as).length := by simp; omega
      have key : h.drop 1 ++ [a] ++ as = (h ++ a :: as).drop 1 := by
        rw [List.drop_append_of_le_length h1]
        simp
      rw [key, List.drop_drop]
      congr 1
      simp [hlen]
      omega
    · have hpush : pushHistory h a = h ++ [a] := by
        simp only [pushHistory, List.length_append, List.length_singleton]
        rw [if_neg]
        omega
      have hplen : (pushHistory h a).length = h.length + 1 := by
        rw [hpush]; simp
      rw [ih (pushHistory h a) (by omega), hpush]
      have hdl : (h ++ [a]).length = h.length + 1 := by simp
      rw [hdl]
      have key : h ++ [a] ++ as = h ++ a :: as := by simp
      rw [key]
      congr 1
      simp
      omega

/-- C1: for every sequence of processed DRAW messages, the history buffer
has length at most 100, and its contents are exactly the most recently
appended actions in insertion order (the suffix of the append sequence
that fits the capacity) — strict FIFO eviction, and `pushHistory` is the
only writer so no other path removes entries. -/
theorem history_fifo (as : List DrawAction) :
    (runDraws as).length ≤ MAX_HISTORY ∧
    runDraws as = as.drop (as.length - MAX_HISTORY) := by
  have h := foldl_pushHistory_eq as [] (by simp)
  simp only [List.nil_append, List.length_nil, Nat.zero_add] at h
  unfold runDraws
  rw [h]
  constructor
  · simp
    omega
  · rfl

/-- Touching a registry entry changes neither identities nor ready states,
so a broadcast over the touched registry reaches exactly the same
recipients. -/
theorem broadcastMessage_touch (l : List Client) (cid now : Nat) (msg : ServerMsg)
    (excl : Option Nat) :
    broadcastMessage (touch l cid now) msg excl = broadcastMessage l msg excl := by
  unfold broadcastMessage touch
  rw [List.filterMap_map]
  apply List.filterMap_congr
  intro c _
  by_cases hc : c.cid = cid <;> simp [hc]

/-- A broadcast sends `msg` to precisely the OPEN, non-excluded clients,
in registry order. -/
theorem broadcastMessage_eq (l : List Client) (msg : ServerMsg) (excl : Option Nat) :
    broadcastMessage l msg excl
      = (l.filter (fun c => some c.cid ≠ excl ∧ c.readyState = RState.OPEN)).map
          (fun c => (c.cid, msg)) := by
  induction l with
  | nil => rfl
  | cons c cs ih =>
    by_cases h : some c.cid ≠ excl ∧ c.readyState = RState.OPEN
    · simp only [broadcastMessage] at ih ⊢
      rw [List.filterMap_cons, if_pos h, List.filter_cons_of_pos (by simpa using h),
        List.map_cons, ih]
    · simp only [broadcastMessage] at ih ⊢
      rw [List.filterMap_cons, if_neg h, List.filter_cons_of_neg (by simpa using h), ih]

/-- Every recipient of a broadcast is a registered client's identifier,
and every delivered message is the broadcast message. -/
theorem mem_broadcastMessage (l : List Client) (msg : ServerMsg) (excl : Option Nat)
    (p : Nat × ServerMsg) (hp : p ∈ broadcastMessage l msg excl) :
    p.1 ∈ l.map Client.cid ∧ p.2 = msg := by
  rw [broadcastMessage_eq] at hp
  rcases List.mem_map.mp hp with ⟨c, hc, hce⟩
  refine ⟨?_, by rw [← hce]⟩
  rw [← hce]
  exact List.mem_map_of_mem Client.cid (List.mem_filter.mp hc).1

/-- C2: the origin validator accepts an absent origin, accepts a member of
the allow-list, and otherwise rejects the handshake with status 401 and a
nonempty human-readable reason, in which case no registry entry is created
and nothing is sent.  Absence is the source's `!info.origin` test, true for
a missing or empty origin header; the first `done` call decides the
handshake. -/
theorem verifyClient_contract :
    (∀ origin : Option String, origin.getD "" = "" →
        handshakeDecision origin = some DoneCall.accept) ∧
    (∀ o : String, o ∈ allowedOrigins → handshakeDecision (some o) = some DoneCall.accept) ∧
    (∀ origin : Option String, origin.getD "" ≠ "" →
        origin.getD "" ∉ allowedOrigins →
        handshakeDecision origin = some (DoneCall.reject 401 "Unauthorized origin") ∧
        "Unauthorized origin" ≠ "" ∧
        ∀ (st : ServerState) (cid now : Nat), tryConnect st origin cid now = (st, [])) := by
  refine ⟨?_, ?_, ?_⟩
  · intro origin h0
    simp [handshakeDecision, verifyClient, h0]
  · intro o ho
    simp [handshakeDecision, verifyClient, ho]
  · intro origin h0 hmem
    have hdec : handshakeDecision origin = some (DoneCall.reject 401 "Unauthorized origin") := by
      simp [handshakeDecision, verifyClient, h0, hmem]
    refine ⟨hdec, by decide, ?_⟩
    intro st cid now
    simp [tryConnect, hdec]

/-- Witness for C2 at concrete origins: absent accepted, listed accepted,
unlisted rejected with 401. -/
theorem verifyClient_contract_witness :
    handshakeDecision none = some DoneCall.accept ∧
    handshakeDecision (some "http://127.0.0.1:5173") = some DoneCall.accept ∧
    handshakeDecision (some "http://evil.example") =
      some (DoneCall.reject 401 "Unauthorized origin") :=
  ⟨verifyClient_contract.1 none rfl,
   verifyClient_contract.2.1 "http://127.0.0.1:5173" (by decide),
   (verifyClient_contract.2.2 (some "http://evil.example") (by decide) (by decide)).1⟩

/-- C6: a well-formed PING yields exactly one PONG carrying the current
time, sent back to the sender alone, and leaves the history buffer
unchanged. -/
theorem ping_pong (st : ServerState) (sender : Client) (now : Nat) :
    (handleMessage st sender now (some ClientMsg.PING)).2
      = [(sender.cid, ServerMsg.PONG now)] ∧
    (handleMessage st sender now (some ClientMsg.PING)).1.drawingHistory
      = st.drawingHistory :=
  ⟨rfl, rfl⟩

/-- C9: a message that fails to parse is discarded: no reply, no
broadcast, the history buffer is unchanged, and the sender stays
registered with its ready state intact (the error is only logged, a
console side effect outside the model). -/
theorem malformed_discarded (st : ServerState) (sender : Client) (now : Nat) :
    (handleMessage st sender now none).2 = [] ∧
    (handleMessage st sender now none).1.drawingHistory = st.drawingHistory ∧
    ∀ c ∈ st.clients, c.cid = sender.cid →
      ∃ c' ∈ (handleMessage st sender now none).1.clients,
        c'.cid = c.cid ∧ c'.readyState = c.readyState := by
  refine ⟨rfl, rfl, ?_⟩
  intro c hc hcid
  refine ⟨{ c with lastActivity := now }, ?_, rfl, rfl⟩
  show _ ∈ touch st.clients sender.cid now
  unfold touch
  exact List.mem_map.mpr ⟨c, hc, by simp [hcid]⟩

/-- C10: every inbound message event — parse failure and unrecognized type
included — resets the sender's last-activity timestamp to the current
time (the source performs the update before `JSON.parse` runs, so it
happens on every branch of the handler). -/
theorem message_touches_activity (st : ServerState) (sender : Client) (now : Nat)
    (msg? : Option ClientMsg) (c : Client) (hc : c ∈ st.clients)
    (hcid : c.cid = sender.cid) :
    ({ c with lastActivity := now } : Client) ∈ (handleMessage st sender now msg?).1.clients := by
  have hmem : ({ c with lastActivity := now } : Client) ∈ touch st.clients sender.cid now := by
    unfold touch
    exact List.mem_map.mpr ⟨c, hc, by simp [hcid]⟩
  cases msg? with
  | none => exact hmem
  | some m => cases m <;> exact hmem

/-- Witness for C9: a malformed frame from A in the concrete three-client
state leaves A registered and OPEN. -/
theorem malformed_discarded_witness :
    clientA ∈ stABC.clients ∧
    ∃ c' ∈ (handleMessage stABC clientA 7 none).1.clients,
      c'.cid = clientA.cid ∧ c'.readyState = clientA.readyState :=
  ⟨by decide, (malformed_discarded stABC clientA 7).2.2 clientA (by decide) rfl⟩

/-- Witness for C10: a parse-failing frame from A at time 7 sets A's
last-activity stamp to 7. -/
theorem message_touches_activity_witness :
    ({ clientA with lastActivity := 7 } : Client)
      ∈ (handleMessage stABC clientA 7 none).1.clients :=
  message_touches_activity stABC clientA 7 none clientA (by decide) rfl

/-- The freshly appended action is always the tail entry of the buffer. -/
theorem pushHistory_getLast? (h : List DrawAction) (a : DrawAction) :
    (pushHistory h a).getLast? = some a := by
  unfold pushHistory
  simp only []
  split
  · rename_i hgt
    rcases h with _ | ⟨b, h'⟩
    · simp [MAX_HISTORY] at hgt
    · show ((b :: h' ++ [a]).drop 1).getLast? = some a
      rw [List.cons_append, List.drop_succ_cons, List.drop_zero]
      exact List.getLast?_concat h'
  · exact List.getLast?_concat h

/-- C3: a well-formed DRAW builds the action from the payload, the
sender's identifier and the server clock, appends it to the history
buffer (it is the buffer's tail entry when the broadcast goes out), and
the broadcast delivers exactly that action to every other OPEN connection
and never to the sender. -/
theorem draw_broadcast (st : ServerState) (sender : Client) (payload : Payload) (now : Nat) :
    (handleMessage st sender now (some (ClientMsg.DRAW payload))).1.drawingHistory
        = pushHistory st.drawingHistory
            { payload := payload, clientId := sender.cid, timestamp := now } ∧
    (handleMessage st sender now (some (ClientMsg.DRAW payload))).1.drawingHistory.getLast?
        = some { payload := payload, clientId := sender.cid, timestamp := now } ∧
    (handleMessage st sender now (some (ClientMsg.DRAW payload))).2
        = (st.clients.filter (fun c => c.cid ≠ sender.cid ∧ c.readyState = RState.OPEN)).map
            (fun c => (c.cid,
              ServerMsg.DRAW { payload := payload, clientId := sender.cid, timestamp := now })) ∧
    ∀ m : ServerMsg,
      (sender.cid, m) ∉ (handleMessage st sender now (some (ClientMsg.DRAW payload))).2 := by
  have hsends : (handleMessage st sender now (some (ClientMsg.DRAW payload))).2
      = (st.clients.filter (fun c => c.cid ≠ sender.cid ∧ c.readyState = RState.OPEN)).map
          (fun c => (c.cid,
            ServerMsg.DRAW { payload := payload, clientId := sender.cid, timestamp := now })) := by
    show broadcastMessage (touch st.clients sender.cid now) _ (some sender.cid) = _
    rw [broadcastMessage_touch, broadcastMessage_eq]
    congr 1
    apply List.filter_congr
    intro c _
    simp
  refine ⟨rfl, pushHistory_getLast? st.drawingHistory _, hsends, ?_⟩
  intro m hm
  rw [hsends] at hm
  rcases List.mem_map.mp hm with ⟨c, hcf, hce⟩
  have hpred := (List.mem_filter.mp hcf).2
  simp only [decide_eq_true_eq] at hpred
  have hcc : c.cid = sender.cid := by
    have := congrArg Prod.fst hce
    simpa using this
  exact hpred.1 hcc

/-- C4: a well-formed CHAT broadcasts the (name, text) pair to every OPEN
connection including the sender, and the history buffer is unchanged. -/
theorem chat_broadcast (st : ServerState) (sender : Client) (now : Nat) (name res : String) :
    (handleMessage st sender now (some (ClientMsg.CHAT name res))).2
        = (st.clients.filter (fun c => c.readyState = RState.OPEN)).map
            (fun c => (c.cid, ServerMsg.CHAT name res)) ∧
    (handleMessage st sender now (some (ClientMsg.CHAT name res))).1.drawingHistory
        = st.drawingHistory ∧
    (sender ∈ st.clients → sender.readyState = RState.OPEN →
      (sender.cid, ServerMsg.CHAT name res)
        ∈ (handleMessage st sender now (some (ClientMsg.CHAT name res))).2) := by
  have hsends : (handleMessage st sender now (some (ClientMsg.CHAT name res))).2
      = (st.clients.filter (fun c => c.readyState = RState.OPEN)).map
          (fun c => (c.cid, ServerMsg.CHAT name res)) := by
    show broadcastMessage (touch st.clients sender.cid now) _ none = _
    rw [broadcastMessage_touch, broadcastMessage_eq]
    congr 1
    apply List.filter_congr
    intro c _
    simp
  refine ⟨hsends, rfl, ?_⟩
  intro hmem hopen
  rw [hsends]
  exact List.mem_map_of_mem _ (List.mem_filter.mpr ⟨hmem, by simp [hopen]⟩)

/-- Witness for C4: A sending CHAT in the three-client state delivers to
A, B, and C alike — in particular the sender A receives it. -/
theorem chat_broadcast_witness :
    clientA ∈ stABC.clients ∧ clientA.readyState = RState.OPEN ∧
    (clientA.cid, ServerMsg.CHAT "alice" "hi")
      ∈ (handleMessage stABC clientA 5 (some (ClientMsg.CHAT "alice" "hi"))).2 :=
  ⟨by decide, rfl, (chat_broadcast stABC clientA 5 "alice" "hi").2.2 (by decide) rfl⟩

/-- Witness for C3: A drawing in the three-client state receives no DRAW
broadcast itself. -/
theorem draw_broadcast_witness :
    (clientA.cid, ServerMsg.DRAW { payload := 9, clientId := clientA.cid, timestamp := 5 })
      ∉ (handleMessage stABC clientA 5 (some (ClientMsg.DRAW 9))).2 :=
  (draw_broadcast stABC clientA 9 5).2.2.2 _

/-- C5: an accepted connection's very first message is an INIT whose
payload is the history buffer exactly as it stood at acceptance; a DRAW
the connection sends afterwards (whose server-assigned timestamp is newer
than everything in that snapshot) lands at the tail of the buffer but is
absent from that same INIT payload. -/
theorem init_snapshot (st : ServerState) (cid now : Nat) :
    (handleConnection st cid now).2.head? = some (cid, ServerMsg.INIT st.drawingHistory) ∧
    initPayloadOf (handleConnection st cid now).2 = some st.drawingHistory ∧
    ∀ (sender : Client) (payload : Payload) (now2 : Nat),
      sender.cid = cid →
      (∀ a ∈ st.drawingHistory, a.timestamp < now2) →
      ∀ d, initPayloadOf (handleConnection st cid now).2 = some d →
        ({ payload := payload, clientId := cid, timestamp := now2 } : DrawAction) ∉ d ∧
        (handleMessage (handleConnection st cid now).1 sender now2
            (some (ClientMsg.DRAW payload))).1.drawingHistory.getLast?
          = some { payload := payload, clientId := cid, timestamp := now2 } := by
  have hinit : initPayloadOf (handleConnection st cid now).2 = some st.drawingHistory := rfl
  refine ⟨rfl, hinit, ?_⟩
  intro sender payload now2 hcid hfresh d hd
  rw [hinit] at hd
  injection hd with hd
  subst hd
  constructor
  · intro hmem
    exact absurd (hfresh _ hmem) (by simp)
  · rw [← hcid]
    exact pushHistory_getLast? _ _

/-- Witness for C5: with one earlier action on the board, a client
accepted at time 1 gets exactly that one-action snapshot, and the action
it draws at time 2 is at the buffer tail but not in its INIT payload. -/
theorem init_snapshot_witness :
    initPayloadOf
        (handleConnection
          { clients := [clientA], drawingHistory := [{ payload := 4, clientId := 1, timestamp := 0 }] }
          7 1).2
      = some [{ payload := 4, clientId := 1, timestamp := 0 }] ∧
    ({ payload := 9, clientId := 7, timestamp := 2 } : DrawAction)
      ∉ [({ payload := 4, clientId := 1, timestamp := 0 } : DrawAction)] ∧
    (handleMessage
        (handleConnection
          { clients := [clientA], drawingHistory := [{ payload := 4, clientId := 1, timestamp := 0 }] }
          7 1).1
        { cid := 7, readyState := RState.OPEN, connectedAt := 1, lastActivity := 1 } 2
        (some (ClientMsg.DRAW 9))).1.drawingHistory.getLast?
      = some { payload := 9, clientId := 7, timestamp := 2 } := by
  have h := (init_snapshot
    { clients := [clientA], drawingHistory := [{ payload := 4, clientId := 1, timestamp := 0 }] }
    7 1).2
  refine ⟨h.1, ?_, ?_⟩
  · exact (h.2 { cid := 7, readyState := RState.OPEN, connectedAt := 1, lastActivity := 1 }
      9 2 rfl (by decide) _ h.1).1
  · exact (h.2 { cid := 7, readyState := RState.OPEN, connectedAt := 1, lastActivity := 1 }
      9 2 rfl (by decide) _ h.1).2

/-- Touching an entry never changes the registered identifiers. -/
theorem map_cid_touch (l : List Client) (cid now : Nat) :
    (touch l cid now).map Client.cid = l.map Client.cid := by
  unfold touch
  rw [List.map_map]
  apply List.map_congr_left
  intro c _
  by_cases hc : c.cid = cid <;> simp [hc]

/-- C7: a sweep pass removes from the registry every connection whose
last activity lies more than the inactivity threshold in the past, leaves
every other connection registered, and — because broadcasts only iterate
the registry — a removed connection receives nothing from any later
message handling (with distinct identifiers, and the removed socket not
being the one that somehow keeps sending). -/
theorem sweep_eviction (st : ServerState) (now : Nat) :
    (∀ c ∈ st.clients, now - c.lastActivity > INACTIVITY_MS → c ∉ (sweep st now).clients) ∧
    (∀ c ∈ st.clients, ¬ now - c.lastActivity > INACTIVITY_MS → c ∈ (sweep st now).clients) ∧
    ((st.clients.map Client.cid).Nodup →
      ∀ c ∈ st.clients, now - c.lastActivity > INACTIVITY_MS →
        ∀ (sender : Client) (now2 : Nat) (msg? : Option ClientMsg),
          sender.cid ≠ c.cid →
          ∀ m : ServerMsg,
            (c.cid, m) ∉ (handleMessage (sweep st now) sender now2 msg?).2) := by
  refine ⟨?_, ?_, ?_⟩
  · intro c _ hstale hmem
    have hpred := (List.mem_filter.mp hmem).2
    simp only [decide_eq_true_eq] at hpred
    exact hpred hstale
  · intro c hc hfresh
    exact List.mem_filter.mpr ⟨hc, by simpa using hfresh⟩
  · intro hnodup c hc hstale sender now2 msg? hsne m hm
    have hcid_out : c.cid ∉ (sweep st now).clients.map Client.cid := by
      intro hin
      rcases List.mem_map.mp hin with ⟨c', hc'f, hc'e⟩
      have hc'mem := (List.mem_filter.mp hc'f).1
      have hceq : c' = c := List.inj_on_of_nodup_map hnodup hc'mem hc hc'e
      subst hceq
      have hpred := (List.mem_filter.mp hc'f).2
      simp only [decide_eq_true_eq] at hpred
      exact hpred hstale
    cases msg? with
    | none => cases hm
    | some msg =>
      cases msg with
      | DRAW payload =>
        have := mem_broadcastMessage _ _ _ _ hm
        rw [map_cid_touch] at this
        exact hcid_out this.1
      | CHAT name res =>
        have := mem_broadcastMessage _ _ _ _ hm
        rw [map_cid_touch] at this
        exact hcid_out this.1
      | PING =>
        have hpair := List.mem_singleton.mp hm
        have hfst : c.cid = sender.cid := congrArg Prod.fst hpair
        exact hsne hfst.symm
      | OTHER => cases hm

/-- Witness for C7: at sweep time 300001 the connection silent since 0 is
evicted, the one active at time 1 survives, and a later CHAT from the
survivor sends nothing to the evicted identifier. -/
theorem sweep_eviction_witness :
    staleClient ∉ (sweep stSweep 300001).clients ∧
    freshClient ∈ (sweep stSweep 300001).clients ∧
    (staleClient.cid, ServerMsg.CHAT "a" "b")
      ∉ (handleMessage (sweep stSweep 300001) freshClient 300002
          (some (ClientMsg.CHAT "a" "b"))).2 :=
  ⟨(sweep_eviction stSweep 300001).1 staleClient (by decide) (by decide),
   (sweep_eviction stSweep 300001).2.1 freshClient (by decide) (by decide),
   (sweep_eviction stSweep 300001).2.2 (by decide) staleClient (by decide) (by decide)
     freshClient 300002 (some (ClientMsg.CHAT "a" "b")) (by decide) (ServerMsg.CHAT "a" "b")⟩

/-- Every drain event is addressed to some iterated socket. -/
theorem eventCid_mem_of_mem_drainEvents (l : List Client) (e : SEvent)
    (he : e ∈ drainEvents l) : eventCid e ∈ l.map Client.cid := by
  induction l with
  | nil => cases he
  | cons c0 cs ih =>
    simp only [drainEvents, List.map_cons, List.flatten_cons] at he
    rcases List.mem_append.mp he with hb | ht
    · split at hb
      · rcases List.mem_cons.mp hb with h1 | h2
        · subst h1; simp [eventCid]
        · rcases List.mem_singleton.mp h2 with h1
          subst h1; simp [eventCid]
      · cases hb
    · exact List.mem_cons_of_mem _ (ih ht)

/-- A drain addresses nothing to an identifier outside the iterated list. -/
theorem drainEvents_filter_not_mem (l : List Client) (x : Nat)
    (hx : x ∉ l.map Client.cid) :
    (drainEvents l).filter (fun e => eventCid e = x) = [] := by
  rw [List.filter_eq_nil_iff]
  intro e he
  simp only [decide_eq_true_eq]
  intro heq
  exact hx (heq ▸ eventCid_mem_of_mem_drainEvents l e he)

/-- Restricted to one OPEN socket's identifier, the drain trace is exactly
one notice send followed by one normal close. -/
theorem drainEvents_filter_open (l : List Client) (c : Client)
    (hnodup : (l.map Client.cid).Nodup) (hc : c ∈ l)
    (hopen : c.readyState = RState.OPEN) :
    (drainEvents l).filter (fun e => eventCid e = c.cid)
      = [SEvent.send c.cid shutdownNotice,
         SEvent.close c.cid 1000 "Server shutdown"] := by
  induction l with
  | nil => cases hc
  | cons c0 cs ih =>
    rw [List.map_cons, List.nodup_cons] at hnodup
    simp only [drainEvents, List.map_cons, List.flatten_cons]
    rw [List.filter_append]
    rcases List.mem_cons.mp hc with hceq | hcs
    · subst hceq
      rw [if_pos hopen]
      have htail : (drainEvents cs).filter (fun e => eventCid e = c.cid) = [] :=
        drainEvents_filter_not_mem cs c.cid hnodup.1
      show _ ++ (drainEvents cs).filter _ = _
      rw [htail, List.append_nil]
      simp [eventCid]
    · have hne : c0.cid ≠ c.cid := by
        intro h
        exact hnodup.1 (h ▸ List.mem_map_of_mem Client.cid hcs)
      have hblock : ((if c0.readyState = RState.OPEN then
          [SEvent.send c0.cid shutdownNotice,
           SEvent.close c0.cid 1000 "Server shutdown"]
        else []) : List SEvent).filter (fun e => eventCid e = c.cid) = [] := by
        split <;> simp [eventCid, hne]
      rw [hblock, List.nil_append]
      exact ih hnodup.2 hcs

/-- C8: on shutdown, every socket OPEN at that instant is sent exactly one
SYSTEM shutdown notice and then exactly one close with the normal-closure
code 1000 (nothing else is addressed to it in the drain); the process
exits 0 when the drain completes gracefully and 1 from the forced timer
after the 5-second timeout, bounding shutdown latency. -/
theorem shutdown_drain (st : ServerState)
    (hnodup : (st.clients.map Client.cid).Nodup)
    (c : Client) (hc : c ∈ st.clients) (hopen : c.readyState = RState.OPEN) :
    (shutdownTrace st).filter (fun e => eventCid e = c.cid)
      = [SEvent.send c.cid shutdownNotice,
         SEvent.close c.cid 1000 "Server shutdown"] ∧
    shutdownExitCode true = 0 ∧ shutdownExitCode false = 1 ∧
    SHUTDOWN_TIMEOUT_MS = 5000 :=
  ⟨drainEvents_filter_open st.clients c hnodup hc hopen, rfl, rfl, rfl⟩

/-- Witness for C8: in the state with one OPEN and one CLOSED socket, the
OPEN one is addressed exactly a notice then a normal close. -/
theorem shutdown_drain_witness :
    (shutdownTrace stAD).filter (fun e => eventCid e = clientA.cid)
      = [SEvent.send clientA.cid shutdownNotice,
         SEvent.close clientA.cid 1000 "Server shutdown"] :=
  (shutdown_drain stAD (by decide) clientA (by decide) rfl).1

end Whiteboard
